import Mathlib

/-!
A shallow embedding of the escape-analysis dataflow engine of
src/compiler/escape-analysis.cc, together with theorems settling the
specification claims about it.  C++ arena pointers are modelled by integer
tags (two live objects are pointer-equal iff their tags agree), machine
integers by Nat, and partial or fatal code by Option.  Fresh arena
allocations receive their tags from explicitly threaded counters.
-/

/-- Dense node identifier assigned by the external IR. -/
abbrev NodeId := Nat

/-- Pointer size of the (64-bit) target platform, from the external globals
header. -/
def kPointerSize : Nat := 8

/-- Size of the Alias value range; the two sentinels sit at its top. -/
def aliasLimit : Nat := 2 ^ 32

/-- EscapeStatusAnalysis::kNotReachable, numeric_limits max of Alias. -/
def kNotReachable : Nat := aliasLimit - 1

/-- EscapeStatusAnalysis::kUntrackable, numeric_limits max of Alias minus 1. -/
def kUntrackable : Nat := aliasLimit - 2

/-- numeric_limits of size_t, the seed of the min folds in MergeFrom and
MergeCache::LoadVirtualObjectsFromStatesFor. -/
def maxSizeT : Nat := 2 ^ 64 - 1

/-- Snapshot of one heap object (class VirtualObject).  The StatusFlags set
over {Tracked, Initialized, CopyRequired} is modelled by three booleans.  The
arena address of the object is modelled by tag, and the owning VirtualState
pointer by ownerTag. -/
structure VirtualObject where
  tag : Nat
  id : NodeId
  tracked : Bool
  initialized : Bool
  copyRequired : Bool
  fields : List (Option NodeId)
  phi : List Bool
  objectState : Option NodeId
  ownerTag : Nat
deriving DecidableEq

/-- VirtualObject(NodeId, VirtualState*, Zone*): kInitial status, no fields. -/
def VirtualObject.initial (id : NodeId) (ownerTag tag : Nat) : VirtualObject :=
  { tag := tag, id := id, tracked := false, initialized := false,
    copyRequired := false, fields := [], phi := [], objectState := none,
    ownerTag := ownerTag }

/-- VirtualObject(NodeId, VirtualState*, Zone*, size_t field_number, bool
initialized): kTracked plus optional kInitialized, fields and phi resized to
field_number (value-initialised to null and false). -/
def VirtualObject.freshTracked (id : NodeId) (ownerTag tag : Nat)
    (field_number : Nat) (initialized : Bool) : VirtualObject :=
  { tag := tag, id := id, tracked := true, initialized := initialized,
    copyRequired := false, fields := List.replicate field_number none,
    phi := List.replicate field_number false, objectState := none,
    ownerTag := ownerTag }

/-- VirtualObject(VirtualState*, const VirtualObject&): the copy constructor
keeps everything but clears kCopyRequired and adopts the new owner. -/
def VirtualObject.copyOf (ownerTag tag : Nat) (other : VirtualObject) :
    VirtualObject :=
  { other with tag := tag, copyRequired := false, ownerTag := ownerTag }

/-- VirtualObject::GetField. -/
def VirtualObject.getField (o : VirtualObject) (offset : Nat) : Option NodeId :=
  o.fields.getD offset none

/-- VirtualObject::IsCreatedPhi. -/
def VirtualObject.isCreatedPhi (o : VirtualObject) (offset : Nat) : Bool :=
  o.phi.getD offset false

/-- VirtualObject::SetField. -/
def VirtualObject.setField (o : VirtualObject) (offset : Nat)
    (node : Option NodeId) (created_phi : Bool) : VirtualObject :=
  { o with fields := o.fields.set offset node,
           phi := o.phi.set offset created_phi }

/-- VirtualObject::ResizeFields: grows fields and phi to field_count when
field_count exceeds the current size and reports whether it grew. -/
def VirtualObject.resizeFields (o : VirtualObject) (field_count : Nat) :
    VirtualObject × Bool :=
  if o.fields.length < field_count then
    ({ o with
        fields := o.fields ++ List.replicate (field_count - o.fields.length) none,
        phi := o.phi ++ List.replicate (field_count - o.phi.length) false },
     true)
  else (o, false)

/-- VirtualObject::ClearAllFields. -/
def VirtualObject.clearAllFields (o : VirtualObject) : VirtualObject :=
  { o with fields := o.fields.map (fun _ => none),
           phi := o.phi.map (fun _ => false) }

/-- VirtualObject::AllFieldsClear. -/
def VirtualObject.allFieldsClear (o : VirtualObject) : Bool :=
  o.fields.all (fun f => f == none)

/-- VirtualObject::NeedCopyForModification. -/
def VirtualObject.needCopyForModification (o : VirtualObject) : Bool :=
  if !o.copyRequired || !o.initialized then false else true

/-- Equality of the status_ flag words of two objects. -/
def VirtualObject.sameStatus (a b : VirtualObject) : Bool :=
  a.tracked == b.tracked && a.initialized == b.initialized &&
    a.copyRequired == b.copyRequired

/-- VirtualObject::UpdateFrom: adopt the other object's status and phi marks;
if the field counts differ adopt its fields wholesale (changed), otherwise
copy fields pointwise, reporting whether anything differed. -/
def VirtualObject.updateFrom (lo ro : VirtualObject) : VirtualObject × Bool :=
  let changed := !(VirtualObject.sameStatus lo ro)
  if lo.fields.length ≠ ro.fields.length then
    ({ lo with tracked := ro.tracked, initialized := ro.initialized,
               copyRequired := ro.copyRequired, phi := ro.phi,
               fields := ro.fields },
     true)
  else
    let r := (List.range lo.fields.length).foldl
      (fun (p : List (Option NodeId) × Bool) i =>
        if p.1.getD i none ≠ ro.fields.getD i none then
          (p.1.set i (ro.fields.getD i none), true)
        else p)
      (lo.fields, changed)
    ({ lo with tracked := ro.tracked, initialized := ro.initialized,
               copyRequired := ro.copyRequired, phi := ro.phi,
               fields := r.1 },
     r.2)

/-- Per-effect-node map from aliases to object snapshots (class VirtualState).
The arena address of the state is modelled by tag; ownerNode is the IR node
owning this state. -/
structure VirtualState where
  tag : Nat
  info : List (Option VirtualObject)
  ownerNode : NodeId
deriving DecidableEq

/-- VirtualState::VirtualObjectFromAlias. -/
def VirtualState.virtualObjectFromAlias (s : VirtualState) (a : Nat) :
    Option VirtualObject :=
  s.info.getD a none

/-- VirtualState::SetVirtualObject. -/
def VirtualState.setVirtualObject (s : VirtualState) (a : Nat)
    (obj : Option VirtualObject) : VirtualState :=
  { s with info := s.info.set a obj }

/-- VirtualState::Copy: clone obj into this state unless it is already owned
by it.  The boolean records whether a copy was made (the TRACE branch of the
source). -/
def VirtualState.copy (s : VirtualState) (obj : VirtualObject) (a : Nat)
    (freshTag : Nat) : VirtualState × VirtualObject × Bool :=
  if obj.ownerTag = s.tag then (s, obj, false)
  else
    let newObj := VirtualObject.copyOf s.tag freshTag obj
    (s.setVirtualObject a (some newObj), newObj, true)

/-- VirtualState::GetOrCreateTrackedVirtualObject.  Note that the body ignores
the declared field_number and always constructs the new object with 0 fields
(the literal 0 at the new expression in the source). -/
def VirtualState.getOrCreateTrackedVirtualObject (s : VirtualState)
    (a : Nat) (id : NodeId) (field_number : Nat) (initialized : Bool)
    (freshTag : Nat) (force_copy : Bool) : VirtualObject × VirtualState :=
  let _ := field_number
  if force_copy = false then
    match s.virtualObjectFromAlias a with
    | some obj => (obj, s)
    | none =>
      let obj := VirtualObject.freshTracked id s.tag freshTag 0 initialized
      (obj, s.setVirtualObject a (some obj))
  else
    let obj := VirtualObject.freshTracked id s.tag freshTag 0 initialized
    (obj, s.setVirtualObject a (some obj))

/-- Body of VirtualState::UpdateFrom, returning the updated state, the fresh
tag counter and the changed flag the loop computes. -/
def VirtualState.updateFromAux (s other : VirtualState) (tagCtr : Nat) :
    VirtualState × Nat × Bool :=
  if s.tag = other.tag then (s, tagCtr, false)
  else
    (List.range s.info.length).foldl
      (fun (p : VirtualState × Nat × Bool) a =>
        let st := p.1
        let ctr := p.2.1
        let changed := p.2.2
        let ls := st.virtualObjectFromAlias a
        let rs := other.virtualObjectFromAlias a
        match ls, rs with
        | _, none => p
        | none, some r =>
          (st.setVirtualObject a (some (VirtualObject.copyOf st.tag ctr r)),
           ctr + 1, true)
        | some l, some r =>
          if l.tag = r.tag then p
          else
            let u := l.updateFrom r
            (st.setVirtualObject a (some u.1), ctr, u.2 || changed))
      (s, tagCtr, false)

/-- VirtualState::UpdateFrom: computes changed internally via the loop above
but unconditionally returns false (the final return of the source). -/
def VirtualState.updateFromState (s other : VirtualState) (tagCtr : Nat) :
    VirtualState × Nat × Bool :=
  let r := VirtualState.updateFromAux s other tagCtr
  (r.1, r.2.1, false)

/-- The slice of the IR graph the merge touches: a fresh-id counter and the
value-phi nodes the pass itself synthesizes, each with its input list (value
inputs followed by the control input). -/
structure Graph where
  nextId : NodeId
  phis : List (NodeId × List NodeId)
deriving DecidableEq

/-- graph()->NewNode(common()->Phi(..., n), n + 1, inputs). -/
def Graph.newNode (g : Graph) (inputs : List NodeId) : NodeId × Graph :=
  (g.nextId, { nextId := g.nextId + 1, phis := (g.nextId, inputs) :: g.phis })

/-- Inputs of a phi node this pass created, if any. -/
def Graph.phiInputs (g : Graph) (id : NodeId) : Option (List NodeId) :=
  (g.phis.find? (fun p => p.1 == id)).map (fun p => p.2)

/-- The NodeProperties::ReplaceValueInput loop of MergeFrom: overwrite the
value inputs of the existing phi, reporting whether any input differed. -/
def Graph.replaceValueInputs (g : Graph) (id : NodeId)
    (newInputs : List NodeId) (changed : Bool) : Graph × Bool :=
  match g.phiInputs id with
  | none => (g, changed)
  | some old =>
    let ch := changed || decide (old.take newInputs.length ≠ newInputs)
    ({ g with
        phis := g.phis.map
          (fun p =>
            if p.1 == id then (p.1, newInputs ++ old.drop newInputs.length)
            else p) },
     ch)

/-- MergeCache::GetFields: the representative node all contributors agree on at
pos (null on any disagreement; contributors whose field count does not reach
pos are skipped), paired with the collected non-null field values
(cache->fields()). -/
def getFieldsRep (objs : List VirtualObject) (pos : Nat) :
    Option NodeId × List NodeId :=
  match objs with
  | [] => (none, [])
  | o0 :: _ =>
    let rep0 := if o0.fields.length ≤ pos then none else o0.getField pos
    objs.foldl
      (fun (p : Option NodeId × List NodeId) obj =>
        if obj.fields.length ≤ pos then p
        else
          let field := obj.getField pos
          let acc :=
            match field with
            | some f => p.2 ++ [f]
            | none => p.2
          ((if field ≠ p.1 then none else p.1), acc))
      (rep0, [])

/-- One iteration of MergeFrom's per-field loop: adopt the agreed
representative, or synthesize / update a value-phi when every contributor has
a value, or clear the slot. -/
def mergeFieldStep (objs : List VirtualObject) (arity : Nat)
    (control : NodeId) (p : Graph × VirtualObject × Bool) (i : Nat) :
    Graph × VirtualObject × Bool :=
  let g := p.1
  let mObj := p.2.1
  let changed := p.2.2
  let r := getFieldsRep objs i
  match r.1 with
  | some field =>
    let changed := changed || decide (mObj.getField i ≠ some field)
    (g, mObj.setField i (some field) false, changed)
  | none =>
    let flds := r.2
    if flds.length = arity then
      let rep := mObj.getField i
      if rep.isNone || !(mObj.isCreatedPhi i) then
        let nn := g.newNode (flds ++ [control])
        (nn.2, mObj.setField i (some nn.1) true, true)
      else
        match rep with
        | some repId =>
          let rr := g.replaceValueInputs repId flds changed
          (rr.1, mObj, rr.2)
        | none => (g, mObj, changed)
    else
      let changed := changed || decide (mObj.getField i ≠ none)
      (g, mObj.setField i none false, changed)

/-- The running min of the contributors' field counts in MergeFrom's state
loop, seeded with the size_t maximum as in the source. -/
def minFieldCount (objs : List VirtualObject) : Nat :=
  objs.foldl (fun acc o => min o.fields.length acc) maxSizeT

/-- The per-alias body of VirtualState::MergeFrom.  The heap sharing of the
source (mutation through the stored pointer) is modelled by writing the merged
object back into the slot at the end.  The call of
GetOrCreateTrackedVirtualObject mirrors the source's argument order, which
passes IsInitialized() for field_number and the min field count for
initialized (the C++ implicit bool/size_t conversions). -/
def mergeFromAlias (states : List VirtualState) (arity : Nat)
    (control : NodeId) (p : Graph × Nat × VirtualState × Bool) (a : Nat) :
    Graph × Nat × VirtualState × Bool :=
  let g := p.1
  let tagCtr := p.2.1
  let merge := p.2.2.1
  let changed := p.2.2.2
  let objs := states.filterMap (fun st => st.virtualObjectFromAlias a)
  let mergeObject := merge.virtualObjectFromAlias a
  let copyMerge :=
    match mergeObject with
    | some m => objs.any (fun o => o.tag == m.tag)
    | none => false
  let changed := changed || copyMerge
  let fields := minFieldCount objs
  if objs.length = states.length then
    match objs with
    | [] => (g, tagCtr, merge, changed)
    | o0 :: _ =>
      let goc := merge.getOrCreateTrackedVirtualObject a o0.id
        (if o0.initialized then 1 else 0) (decide (fields ≠ 0)) tagCtr
        copyMerge
      let rz := goc.1.resizeFields fields
      let changed := rz.2 || changed
      let loop := (List.range fields).foldl (mergeFieldStep objs arity control)
        (g, rz.1, changed)
      (loop.1, tagCtr + 1, goc.2.setVirtualObject a (some loop.2.1), loop.2.2)
  else
    let changed := changed || decide (mergeObject ≠ none)
    (g, tagCtr, merge.setVirtualObject a none, changed)

/-- VirtualState::MergeFrom: run the per-alias merge over every alias of the
merge state.  states is cache->states(), arity the effect-input count of the
EffectPhi and control its control input. -/
def VirtualState.mergeFrom (merge : VirtualState) (g : Graph) (tagCtr : Nat)
    (states : List VirtualState) (arity : Nat) (control : NodeId) :
    Graph × Nat × VirtualState × Bool :=
  (List.range merge.info.length).foldl (mergeFromAlias states arity control)
    (g, tagCtr, merge, false)

/-- The status_ flag word of one node, a flag set over {Tracked, Escaped,
InQueue, OnStack, Visited, DanglingComputed, Dangling, BranchPointComputed,
BranchPoint} (kUnknown is the all-clear word).  The enumerators live in the
class declaration of EscapeStatusAnalysis in the (external) header; the flag
set is modelled as one boolean per flag. -/
structure StatusFlags where
  tracked : Bool
  escaped : Bool
  onStack : Bool
  inQueue : Bool
  visited : Bool
  danglingComputed : Bool
  dangling : Bool
  branchPointComputed : Bool
  branchPoint : Bool
deriving DecidableEq

/-- kUnknown: no flag set. -/
def StatusFlags.unknown : StatusFlags :=
  ⟨false, false, false, false, false, false, false, false, false⟩

/-- Opcodes the engine dispatches on; every other operator is other. -/
inductive Opcode where
  | allocate
  | finishRegion
  | beginRegion
  | storeField
  | storeElement
  | loadField
  | loadElement
  | frameState
  | stateValues
  | referenceEqual
  | objectIsSmi
  | phi
  | effectPhi
  | select
  | start
  | load
  | other
deriving DecidableEq

/-- The slice of IR node metadata the status analysis consults: opcode,
operator input counts, and the node's use edges as (user, input index)
pairs. -/
structure NodeInfo where
  opcode : Opcode
  valueInputCount : Nat
  contextInputCount : Nat
  effectInputCount : Nat
  uses : List (NodeId × Nat)
deriving DecidableEq

/-- Metadata default for ids outside the environment. -/
def NodeInfo.unknown : NodeInfo := ⟨Opcode.other, 0, 0, 0, []⟩

/-- Node metadata lookup. -/
def nodeInfo (env : List NodeInfo) (id : NodeId) : NodeInfo :=
  env.getD id NodeInfo.unknown

/-- EscapeStatusAnalysis::IsAllocation: Allocate or FinishRegion. -/
def isAllocationOp (env : List NodeInfo) (id : NodeId) : Bool :=
  (nodeInfo env id).opcode == Opcode.allocate ||
    (nodeInfo env id).opcode == Opcode.finishRegion

/-- The mutable state of EscapeStatusAnalysis: the status_ vector, the
aliases_ vector and the status_stack_ worklist. -/
structure StatusState where
  status : List StatusFlags
  aliases : List Nat
  statusStack : List NodeId
deriving DecidableEq

namespace EscapeStatusAnalysis

/-- status_[id] (kUnknown beyond the vector). -/
def statusGet (s : StatusState) (id : NodeId) : StatusFlags :=
  s.status.getD id StatusFlags.unknown

/-- Update status_[id] in place. -/
def setStatus (s : StatusState) (id : NodeId) (f : StatusFlags → StatusFlags) :
    StatusState :=
  { s with status := s.status.set id (f (statusGet s id)) }

/-- EscapeStatusAnalysis::HasEntry: status_[id] has kTracked or kEscaped. -/
def hasEntry (s : StatusState) (id : NodeId) : Bool :=
  (statusGet s id).tracked || (statusGet s id).escaped

/-- EscapeStatusAnalysis::IsVirtual(NodeId): kTracked and not kEscaped. -/
def isVirtual (s : StatusState) (id : NodeId) : Bool :=
  (statusGet s id).tracked && !(statusGet s id).escaped

/-- EscapeStatusAnalysis::IsEscaped. -/
def isEscaped (s : StatusState) (id : NodeId) : Bool :=
  (statusGet s id).escaped

/-- EscapeStatusAnalysis::SetEscaped: or kEscaped and kTracked into the word,
reporting whether kEscaped was newly set. -/
def setEscaped (s : StatusState) (id : NodeId) : StatusState × Bool :=
  let changed := !(statusGet s id).escaped
  (setStatus s id (fun fl => { fl with escaped := true, tracked := true }),
   changed)

/-- EscapeStatusAnalysis::IsNotReachable: ids beyond aliases_ count as
reachable; otherwise compare against the kNotReachable sentinel. -/
def isNotReachable (s : StatusState) (id : NodeId) : Bool :=
  if s.aliases.length ≤ id then false
  else s.aliases.getD id kNotReachable == kNotReachable

/-- EscapeStatusAnalysis::RevisitUses: push every reachable use that is not
already on the stack, marking kOnStack. -/
def revisitUses (env : List NodeInfo) (s : StatusState) (node : NodeId) :
    StatusState :=
  (nodeInfo env node).uses.foldl
    (fun st e =>
      let use := e.1
      if !(statusGet st use).onStack && !(isNotReachable st use) then
        let st1 := setStatus st use (fun fl => { fl with onStack := true })
        { st1 with statusStack := st1.statusStack ++ [use] }
      else st)
    s

/-- One use edge of EscapeStatusAnalysis::CheckUsesForEscape: none models the
fatal UNREACHABLE default (effect-carrying unknown operator); some (s, true)
models the early return true, some (s, false) continuing the loop. -/
def checkUseForEscape (env : List NodeInfo) (s : StatusState)
    (usesNode rep : NodeId) (phiEscaping : Bool) (use : NodeId)
    (index : Nat) : Option (StatusState × Bool) :=
  if isNotReachable s use then some (s, false)
  else if (nodeInfo env use).valueInputCount +
      (nodeInfo env use).contextInputCount ≤ index then some (s, false)
  else
    let allowCase : StatusState → Option (StatusState × Bool) := fun st =>
      if isEscaped st use then
        let r := setEscaped st rep
        if r.2 then some (r.1, true) else some (r.1, false)
      else some (st, false)
    match (nodeInfo env use).opcode with
    | Opcode.phi =>
      if phiEscaping then
        let r := setEscaped s rep
        if r.2 then some (r.1, true) else allowCase r.1
      else allowCase s
    | Opcode.storeField => allowCase s
    | Opcode.loadField => allowCase s
    | Opcode.storeElement => allowCase s
    | Opcode.loadElement => allowCase s
    | Opcode.frameState => allowCase s
    | Opcode.stateValues => allowCase s
    | Opcode.referenceEqual => allowCase s
    | Opcode.finishRegion => allowCase s
    | Opcode.objectIsSmi =>
      if !(isAllocationOp env rep) then
        let r := setEscaped s rep
        if r.2 then some (r.1, true) else some (r.1, false)
      else some (s, false)
    | Opcode.select =>
      let r := setEscaped s rep
      if r.2 then some (r.1, true) else some (r.1, false)
    | _ =>
      if (nodeInfo env use).effectInputCount == 0 &&
          decide (0 < (nodeInfo env usesNode).effectInputCount) then none
      else
        let r := setEscaped s rep
        if r.2 then some (r.1, true) else some (r.1, false)

/-- The use-edge loop of CheckUsesForEscape. -/
def checkUsesForEscapeGo (env : List NodeInfo) (usesNode rep : NodeId)
    (phiEscaping : Bool) :
    StatusState → List (NodeId × Nat) → Option (StatusState × Bool)
  | s, [] => some (s, false)
  | s, e :: rest =>
    match checkUseForEscape env s usesNode rep phiEscaping e.1 e.2 with
    | none => none
    | some (s1, true) => some (s1, true)
    | some (s1, false) => checkUsesForEscapeGo env usesNode rep phiEscaping s1 rest

/-- EscapeStatusAnalysis::CheckUsesForEscape over all use edges of usesNode. -/
def checkUsesForEscape (env : List NodeInfo) (s : StatusState)
    (usesNode rep : NodeId) (phiEscaping : Bool) :
    Option (StatusState × Bool) :=
  checkUsesForEscapeGo env usesNode rep phiEscaping s (nodeInfo env usesNode).uses

/-- EscapeStatusAnalysis::ProcessAllocate.  sizeIsConst models
NumberMatcher(size).HasValue() on the allocation's size input.  On first
sight the node is marked kTracked and its uses revisited; a non-constant size
escapes the node and returns early; otherwise the uses are checked for
escape (none models the fatal UNREACHABLE inside that check). -/
def processAllocate (env : List NodeInfo) (s0 : StatusState) (node : NodeId)
    (sizeIsConst : Bool) : Option StatusState :=
  let first :=
    if !(hasEntry s0 node) then
      let s1 := setStatus s0 node (fun fl => { fl with tracked := true })
      let s2 := revisitUses env s1 node
      if !sizeIsConst then
        let r := setEscaped s2 node
        (r.1, r.2)
      else (s2, false)
    else (s0, false)
  if first.2 then some first.1
  else
    match checkUsesForEscape env first.1 node node true with
    | none => none
    | some (s3, esc) => some (if esc then revisitUses env s3 node else s3)

end EscapeStatusAnalysis

namespace EscapeAnalysis

/-- EscapeAnalysis::replacement(NodeId): grow-safe lookup in replacements_,
null for any id at or beyond the table size. -/
def replacement (r : List (Option NodeId)) (id : NodeId) : Option NodeId :=
  if r.length ≤ id then none else r.getD id none

/-- EscapeAnalysis::ResolveReplacement: follow the replacement chain until no
further replacement exists.  The while loop of the source is modelled with
explicit fuel; a fuel of zero returns the node unattended. -/
def resolveReplacement (r : List (Option NodeId)) : Nat → NodeId → NodeId
  | 0, node => node
  | fuel + 1, node =>
    match replacement r node with
    | none => node
    | some m => resolveReplacement r fuel m

/-- Loop of EscapeAnalysis::GetReplacement(NodeId): remember the last node of
the chain, null when the id has no replacement at all. -/
def getReplacementGo (r : List (Option NodeId)) :
    Nat → NodeId → Option NodeId → Option NodeId
  | 0, _, acc => acc
  | fuel + 1, id, acc =>
    match replacement r id with
    | none => acc
    | some m => getReplacementGo r fuel m (some m)

/-- EscapeAnalysis::GetReplacement(NodeId). -/
def getReplacement (r : List (Option NodeId)) (fuel : Nat) (id : NodeId) :
    Option NodeId :=
  getReplacementGo r fuel id none

/-- EscapeAnalysis::IsVirtual(Node*): false for ids beyond the status vector,
else the status-level query. -/
def isVirtual (s : StatusState) (id : NodeId) : Bool :=
  if s.status.length ≤ id then false
  else EscapeStatusAnalysis.isVirtual s id

/-- EscapeAnalysis::IsEscaped(Node*): false for ids beyond the status vector,
else the status-level query. -/
def isEscaped (s : StatusState) (id : NodeId) : Bool :=
  if s.status.length ≤ id then false
  else EscapeStatusAnalysis.isEscaped s id

/-- EscapeStatusAnalysis::GetAlias via the aliases_ table (the table is
initialised with kNotReachable). -/
def getAlias (aliases : List Nat) (id : NodeId) : Nat :=
  aliases.getD id kNotReachable

/-- EscapeAnalysis::CopyForModificationAt(VirtualState*, Node*): clone the
state when it is not owned by node. -/
def copyForModificationAtState (s : VirtualState) (node : NodeId)
    (freshTag : Nat) : VirtualState :=
  if s.ownerNode ≠ node then { s with ownerNode := node, tag := freshTag }
  else s

/-- EscapeAnalysis::CopyForModificationAt(VirtualObject*, VirtualState*,
Node*): when the object needs a copy for modification, clone the state (if not
owned by node) and copy the object into it. -/
def copyForModificationAt (obj : VirtualObject) (state : VirtualState)
    (node : NodeId) (aliases : List Nat) (freshStateTag freshObjTag : Nat) :
    VirtualState × VirtualObject × Bool :=
  if obj.needCopyForModification then
    let st := copyForModificationAtState state node freshStateTag
    st.copy obj (getAlias aliases obj.id) freshObjTag
  else (state, obj, false)

/-- EscapeAnalysis::ProcessAllocation after ForwardVirtualState: state is the
virtual state already attached to the node, ownerIsEffectPhi models
state->owner()->opcode() == IrOpcode::kEffectPhi and sizeConst the
NumberMatcher on the size input (the double value truncates to a size_t on
division by kPointerSize, as Nat division does for the integral sizes the IR
produces). -/
def processAllocation (state : VirtualState) (node : NodeId) (a : Nat)
    (sizeConst : Option Nat) (ownerIsEffectPhi : Bool)
    (freshStateTag freshObjTag : Nat) : VirtualState :=
  match state.virtualObjectFromAlias a with
  | some _ => state
  | none =>
    let st :=
      if ownerIsEffectPhi then copyForModificationAtState state node freshStateTag
      else state
    match sizeConst with
    | some size =>
      st.setVirtualObject a
        (some (VirtualObject.freshTracked node st.tag freshObjTag
          (size / kPointerSize) false))
    | none =>
      st.setVirtualObject a
        (some (VirtualObject.initial node st.tag freshObjTag))

end EscapeAnalysis

/-- Example replacement table with one chained entry, used by the witnesses of
the replacement-resolution claims. -/
def replacementsEx : List (Option NodeId) := [some 1, none]

/-- A measure witnessing the acyclicity of replacementsEx. -/
def muEx : NodeId → Nat := fun a => 2 - a

/-- Example objects for the field-count claims: loEx has two fields, roEx a
single one. -/
def loEx : VirtualObject :=
  { tag := 1, id := 4, tracked := true, initialized := true,
    copyRequired := false, fields := [some 7, some 8], phi := [false, false],
    objectState := none, ownerTag := 0 }

/-- The source object of the shrinking UpdateFrom counterexample. -/
def roEx : VirtualObject :=
  { tag := 2, id := 4, tracked := true, initialized := true,
    copyRequired := false, fields := [some 7], phi := [false],
    objectState := none, ownerTag := 0 }

/-- An object whose owner differs from the state but which has CopyRequired
clear: the clone-on-write counterexample. -/
def objC3 : VirtualObject :=
  { tag := 10, id := 3, tracked := true, initialized := true,
    copyRequired := false, fields := [], phi := [], objectState := none,
    ownerTag := 0 }

/-- The state of the clone-on-write counterexample (tag 1, owned by node 3). -/
def stC3 : VirtualState := ⟨1, [none], 3⟩

/-- The pre-existing merge object of the MergeFrom field-count counterexample:
two (cleared) fields, pointer tag 100. -/
def mObjC2 : VirtualObject :=
  { tag := 100, id := 9, tracked := true, initialized := false,
    copyRequired := false, fields := [none, none], phi := [false, false],
    objectState := none, ownerTag := 0 }

/-- The single contributing object of that counterexample: one field, tag 5. -/
def contribC2 : VirtualObject :=
  { tag := 5, id := 9, tracked := true, initialized := false,
    copyRequired := false, fields := [none], phi := [false],
    objectState := none, ownerTag := 1 }

/-- The merge state of the counterexample, already holding mObjC2 at alias 0. -/
def mergeC2 : VirtualState := ⟨0, [some mObjC2], 6⟩

/-- The single in-state of the counterexample, holding contribC2 at alias 0. -/
def stateC2 : VirtualState := ⟨1, [some contribC2], 7⟩

section Helpers

variable {α β : Type}

/-- A foldl preserves any invariant its step preserves. -/
theorem foldl_pres (P : β → Prop) (f : β → α → β)
    (hstep : ∀ b x, P b → P (f b x)) :
    ∀ (l : List α) (b : β), P b → P (l.foldl f b) := by
  intro l
  induction l with
  | nil => intro b hb; exact hb
  | cons x t ih => intro b hb; exact ih (f b x) (hstep b x hb)

/-- getD after set at the same in-bounds index. -/
theorem getD_set_self (l : List α) (i : Nat) (x d : α) (h : i < l.length) :
    (l.set i x).getD i d = x := by
  induction l generalizing i with
  | nil => simp at h
  | cons y t ih =>
    cases i with
    | zero => rfl
    | succ j =>
      simp only [List.set, List.getD, List.getElem?_cons_succ]
      exact ih j (by simpa using h)

/-- getD after set at a different index. -/
theorem getD_set_ne (l : List α) (i j : Nat) (x d : α) (h : i ≠ j) :
    (l.set i x).getD j d = l.getD j d := by
  induction l generalizing i j with
  | nil => rfl
  | cons y t ih =>
    cases i with
    | zero =>
      cases j with
      | zero => exact absurd rfl h
      | succ k => rfl
    | succ i1 =>
      cases j with
      | zero => rfl
      | succ k =>
        simp only [List.set, List.getD, List.getElem?_cons_succ]
        exact ih i1 k (fun hc => h (by omega))

/-- The length of a filterMap equals the list length iff f is some
everywhere on it. -/
theorem filterMap_length_eq_iff (f : α → Option β) :
    ∀ l : List α, (l.filterMap f).length = l.length ↔
      ∀ x ∈ l, (f x).isSome := by
  intro l
  induction l with
  | nil => simp
  | cons x t ih =>
    have hle : (t.filterMap f).length ≤ t.length := List.length_filterMap_le f t
    cases hx : f x with
    | none =>
      simp only [List.filterMap_cons, hx, List.length_cons]
      constructor
      · intro h; omega
      · intro h
        have := h x (by simp)
        simp [hx] at this
    | some b =>
      simp only [List.filterMap_cons, hx, List.length_cons, Nat.add_right_cancel_iff]
      rw [ih]
      constructor
      · intro h y hy
        rcases List.mem_cons.mp hy with hy1 | hy1
        · simp [hy1, hx]
        · exact h y hy1
      · intro h y hy; exact h y (by simp [hy])

end Helpers

/-- Claim C1: the state-level UpdateFrom computes internally whether the state
changed (its loop can produce a true changed flag), but for every pair of
states its return value is false. -/
theorem updateFromState_always_returns_false :
    (∀ (s other : VirtualState) (tagCtr : Nat),
        (VirtualState.updateFromState s other tagCtr).2.2 = false) ∧
      ∃ (s other : VirtualState) (tagCtr : Nat),
        (VirtualState.updateFromAux s other tagCtr).2.2 = true := by
  constructor
  · intro s other tagCtr
    rfl
  · exact ⟨⟨0, [none], 0⟩,
      ⟨1, [some (VirtualObject.initial 3 1 5)], 0⟩, 0, by decide⟩

/-- Claim C4 counterexample: VirtualObject::UpdateFrom performed on an object
with two fields from a source with one field reduces the object's field count
from 2 to 1, so field counts do not grow monotonically under every operation
of the pass. -/
theorem updateFrom_reduces_fieldCount_counterexample :
    loEx.fields.length = 2 ∧
      ((VirtualObject.updateFrom loEx roEx).1).fields.length = 1 := by
  decide

/-- Claim C4 (amended): ResizeFields never shrinks an object (the resulting
field count is the max of the old count and the request), but
VirtualObject::UpdateFrom adopts the source object's field count, which can be
smaller; so the field count is not monotone under every operation of a pass. -/
theorem resizeFields_grows_updateFrom_adopts_source :
    (∀ (o : VirtualObject) (n : Nat),
        ((o.resizeFields n).1).fields.length = max o.fields.length n) ∧
      ∀ (lo ro : VirtualObject),
        ((VirtualObject.updateFrom lo ro).1).fields.length =
          ro.fields.length := by
  constructor
  · intro o n
    unfold VirtualObject.resizeFields
    split
    · rename_i h
      simp only [List.length_append, List.length_replicate]
      omega
    · rename_i h
      simp only [Nat.max_eq_left (by omega : n ≤ o.fields.length)]
  · intro lo ro
    unfold VirtualObject.updateFrom
    split
    · rfl
    · rename_i h
      simp only [ne_eq, not_not] at h
      have hpres :
          ∀ p : List (Option NodeId) × Bool, p.1.length = lo.fields.length →
            (((List.range lo.fields.length).foldl
              (fun (p : List (Option NodeId) × Bool) i =>
                if p.1.getD i none ≠ ro.fields.getD i none then
                  (p.1.set i (ro.fields.getD i none), true)
                else p) p).1).length = lo.fields.length := by
        intro p hp
        exact foldl_pres (fun q => q.1.length = lo.fields.length)
          (fun (p : List (Option NodeId) × Bool) i =>
            if p.1.getD i none ≠ ro.fields.getD i none then
              (p.1.set i (ro.fields.getD i none), true)
            else p)
          (by
            intro b x hb
            by_cases hc : b.1.getD x none ≠ ro.fields.getD x none
            · simpa only [if_pos hc, List.length_set] using hb
            · simpa only [if_neg hc] using hb)
          (List.range lo.fields.length) p hp
      simpa [h] using hpres (lo.fields, !(VirtualObject.sameStatus lo ro)) rfl

/-- Claim C5: replacement resolution is idempotent.  If the chain from n
reaches a fixed point within the given fuel (the loop of the source
terminates), resolving the result again — with any fuel — returns it
unchanged. -/
theorem resolveReplacement_idempotent (r : List (Option NodeId)) (fuel : Nat)
    (n : NodeId)
    (h : EscapeAnalysis.replacement r
      (EscapeAnalysis.resolveReplacement r fuel n) = none) :
    ∀ g : Nat,
      EscapeAnalysis.resolveReplacement r g
          (EscapeAnalysis.resolveReplacement r fuel n) =
        EscapeAnalysis.resolveReplacement r fuel n := by
  intro g
  cases g with
  | zero => rfl
  | succ k => simp [EscapeAnalysis.resolveReplacement, h]

/-- Witness for the idempotence claim at the concrete table replacementsEx. -/
theorem resolveReplacement_idempotent_witness :
    EscapeAnalysis.replacement replacementsEx
        (EscapeAnalysis.resolveReplacement replacementsEx 2 0) = none ∧
      EscapeAnalysis.resolveReplacement replacementsEx 5
          (EscapeAnalysis.resolveReplacement replacementsEx 2 0) =
        EscapeAnalysis.resolveReplacement replacementsEx 2 0 :=
  ⟨by decide, resolveReplacement_idempotent replacementsEx 2 0 (by decide) 5⟩

/-- With an acyclicity measure, enough fuel drives the resolution to a node
with no further replacement. -/
theorem resolve_fixpoint_of_measure (r : List (Option NodeId))
    (mu : NodeId → Nat)
    (hacyc : ∀ a b, EscapeAnalysis.replacement r a = some b → mu b < mu a) :
    ∀ (k : Nat) (n : NodeId), mu n < k →
      EscapeAnalysis.replacement r
        (EscapeAnalysis.resolveReplacement r k n) = none := by
  intro k
  induction k with
  | zero => intro n h; omega
  | succ k ih =>
    intro n h
    cases hr : EscapeAnalysis.replacement r n with
    | none => simp [EscapeAnalysis.resolveReplacement, hr]
    | some m =>
      have hm := hacyc n m hr
      simp only [EscapeAnalysis.resolveReplacement, hr]
      exact ih m (by omega)

/-- With an acyclicity measure, the resolution result is independent of the
fuel once the fuel exceeds the measure. -/
theorem resolve_stable_of_measure (r : List (Option NodeId))
    (mu : NodeId → Nat)
    (hacyc : ∀ a b, EscapeAnalysis.replacement r a = some b → mu b < mu a) :
    ∀ (k k2 : Nat) (n : NodeId), mu n < k → mu n < k2 →
      EscapeAnalysis.resolveReplacement r k n =
        EscapeAnalysis.resolveReplacement r k2 n := by
  intro k
  induction k with
  | zero => intro k2 n h; omega
  | succ k ih =>
    intro k2 n h h2
    cases k2 with
    | zero => omega
    | succ k3 =>
      cases hr : EscapeAnalysis.replacement r n with
      | none => simp [EscapeAnalysis.resolveReplacement, hr]
      | some m =>
        have hm := hacyc n m hr
        simp only [EscapeAnalysis.resolveReplacement, hr]
        exact ih k3 m (by omega) (by omega)

/-- Claim C6: under the precondition that the replacement table is acyclic
(witnessed by a strictly decreasing measure along every set replacement),
resolve(n) terminates: a fuel of mu n + 1 reaches a node with no further
replacement, and any larger fuel returns the same result. -/
theorem resolveReplacement_terminates (r : List (Option NodeId))
    (mu : NodeId → Nat)
    (hacyc : ∀ a b, EscapeAnalysis.replacement r a = some b → mu b < mu a)
    (n : NodeId) :
    ∃ fuel : Nat,
      EscapeAnalysis.replacement r
          (EscapeAnalysis.resolveReplacement r fuel n) = none ∧
        ∀ g : Nat, fuel ≤ g →
          EscapeAnalysis.resolveReplacement r g n =
            EscapeAnalysis.resolveReplacement r fuel n := by
  refine ⟨mu n + 1, resolve_fixpoint_of_measure r mu hacyc (mu n + 1) n (by omega), ?_⟩
  intro g hg
  exact resolve_stable_of_measure r mu hacyc g (mu n + 1) n (by omega) (by omega)

/-- Witness for the termination claim at the concrete acyclic table
replacementsEx with measure muEx. -/
theorem resolveReplacement_terminates_witness :
    (∀ a b, EscapeAnalysis.replacement replacementsEx a = some b →
        muEx b < muEx a) ∧
      ∃ fuel : Nat,
        EscapeAnalysis.replacement replacementsEx
            (EscapeAnalysis.resolveReplacement replacementsEx fuel 0) = none ∧
          ∀ g : Nat, fuel ≤ g →
            EscapeAnalysis.resolveReplacement replacementsEx g 0 =
              EscapeAnalysis.resolveReplacement replacementsEx fuel 0 := by
  have hac : ∀ a b, EscapeAnalysis.replacement replacementsEx a = some b →
      muEx b < muEx a := by
    intro a b h
    match a with
    | 0 =>
      have hb : (1 : NodeId) = b := by
        simpa [EscapeAnalysis.replacement, replacementsEx] using h
      subst hb; decide
    | 1 => simp [EscapeAnalysis.replacement, replacementsEx] at h
    | (a + 2) => simp [EscapeAnalysis.replacement, replacementsEx] at h
  exact ⟨hac, resolveReplacement_terminates replacementsEx muEx hac 0⟩

/-- Claim C9: side-table queries by NodeId are grow-safe.  For any id at or
beyond the table sizes, replacement lookup returns null, GetReplacement
returns null (at every fuel), IsVirtual and IsEscaped return false; the
queries are pure functions and never extend the tables. -/
theorem side_table_queries_grow_safe (r : List (Option NodeId))
    (s : StatusState) (id : NodeId) (hr : r.length ≤ id)
    (hs : s.status.length ≤ id) :
    EscapeAnalysis.replacement r id = none ∧
      (∀ fuel : Nat, EscapeAnalysis.getReplacement r fuel id = none) ∧
      EscapeAnalysis.isVirtual s id = false ∧
      EscapeAnalysis.isEscaped s id = false := by
  have hrep : EscapeAnalysis.replacement r id = none := by
    simp [EscapeAnalysis.replacement, hr]
  refine ⟨hrep, ?_, ?_, ?_⟩
  · intro fuel
    cases fuel with
    | zero => rfl
    | succ k =>
      simp [EscapeAnalysis.getReplacement, EscapeAnalysis.getReplacementGo, hrep]
  · simp [EscapeAnalysis.isVirtual, hs]
  · simp [EscapeAnalysis.isEscaped, hs]

/-- Witness for the grow-safety claim at empty tables. -/
theorem side_table_queries_grow_safe_witness :
    EscapeAnalysis.replacement ([] : List (Option NodeId)) 0 = none ∧
      (∀ fuel : Nat,
        EscapeAnalysis.getReplacement ([] : List (Option NodeId)) fuel 0 = none) ∧
      EscapeAnalysis.isVirtual ⟨[], [], []⟩ 0 = false ∧
      EscapeAnalysis.isEscaped ⟨[], [], []⟩ 0 = false :=
  side_table_queries_grow_safe [] ⟨[], [], []⟩ 0 (by decide) (by decide)

/-- Claim C3 counterexample: objC3's owner differs from stC3 (ownerTag 0
against state tag 1), yet CopyForModificationAt performs no clone and returns
the object unchanged, because the object does not have both CopyRequired and
Initialized set.  This refutes that clone-on-write clones exactly when the
owner differs or CopyRequired and Initialized hold. -/
theorem copyForModificationAt_owner_only_no_clone :
    objC3.ownerTag ≠ stC3.tag ∧
      (EscapeAnalysis.copyForModificationAt objC3 stC3 3 [] 99 98).2.2 = false ∧
      (EscapeAnalysis.copyForModificationAt objC3 stC3 3 [] 99 98).2.1 = objC3 := by
  decide

/-- Claim C3 (amended): CopyForModificationAt clones exactly when the object
has both CopyRequired and Initialized set and its owner differs from the state
that results from the (possible) state clone; the owner differing alone does
not trigger a clone.  When it clones, the clone is the copy-constructed object
with CopyRequired cleared and the new state as owner; otherwise the object is
returned unchanged. -/
theorem copyForModificationAt_clone_condition (obj : VirtualObject)
    (state : VirtualState) (node : NodeId) (aliases : List Nat)
    (freshStateTag freshObjTag : Nat) :
    (EscapeAnalysis.copyForModificationAt obj state node aliases freshStateTag
        freshObjTag).2.2 =
      (obj.needCopyForModification &&
        !(obj.ownerTag ==
          (EscapeAnalysis.copyForModificationAtState state node
            freshStateTag).tag)) ∧
    (EscapeAnalysis.copyForModificationAt obj state node aliases freshStateTag
        freshObjTag).2.1 =
      (if obj.needCopyForModification &&
          !(obj.ownerTag ==
            (EscapeAnalysis.copyForModificationAtState state node
              freshStateTag).tag) then
        VirtualObject.copyOf
          (EscapeAnalysis.copyForModificationAtState state node
            freshStateTag).tag freshObjTag obj
      else obj) ∧
    (VirtualObject.copyOf
      (EscapeAnalysis.copyForModificationAtState state node
        freshStateTag).tag freshObjTag obj).copyRequired = false := by
  refine ⟨?_, ?_, rfl⟩ <;>
  · unfold EscapeAnalysis.copyForModificationAt
    by_cases hn : obj.needCopyForModification
    · simp only [hn, if_true]
      unfold VirtualState.copy
      by_cases ho : obj.ownerTag =
          (EscapeAnalysis.copyForModificationAtState state node
            freshStateTag).tag
      · simp [ho]
      · simp [ho]
    · simp [hn]

/-- Claim C7: when ProcessAllocation sees an Allocate whose size input is a
compile-time number and no object yet exists at its alias, it installs a
VirtualObject whose field count is size divided by the pointer size, Tracked
and not Initialized. -/
theorem processAllocation_const_size (state : VirtualState) (node : NodeId)
    (a : Nat) (sz : Nat) (ownerIsEffectPhi : Bool)
    (freshStateTag freshObjTag : Nat)
    (hnone : state.virtualObjectFromAlias a = none)
    (hlt : a < state.info.length) :
    ∃ obj : VirtualObject,
      (EscapeAnalysis.processAllocation state node a (some sz)
          ownerIsEffectPhi freshStateTag freshObjTag).virtualObjectFromAlias a =
        some obj ∧
      obj.fields.length = sz / kPointerSize ∧
      obj.tracked = true ∧ obj.initialized = false := by
  have hinfo :
      (if ownerIsEffectPhi then
        EscapeAnalysis.copyForModificationAtState state node freshStateTag
      else state).info = state.info := by
    by_cases h1 : ownerIsEffectPhi
    · simp only [h1, if_true]
      unfold EscapeAnalysis.copyForModificationAtState
      split <;> rfl
    · simp [h1]
  refine ⟨VirtualObject.freshTracked node
    (if ownerIsEffectPhi then
      EscapeAnalysis.copyForModificationAtState state node freshStateTag
    else state).tag freshObjTag (sz / kPointerSize) false, ?_, ?_, rfl, rfl⟩
  · unfold EscapeAnalysis.processAllocation
    simp only [hnone]
    unfold VirtualState.setVirtualObject VirtualState.virtualObjectFromAlias
    simp only [hinfo]
    exact getD_set_self state.info a _ none hlt
  · simp [VirtualObject.freshTracked]

/-- Witness for the constant-size allocation claim: an 16-byte allocation at
alias 0 of an empty one-slot state yields a two-field Tracked uninitialized
object. -/
theorem processAllocation_const_size_witness :
    (VirtualState.virtualObjectFromAlias ⟨0, [none], 5⟩ 0 = none ∧
        0 < (VirtualState.info ⟨0, [none], 5⟩).length) ∧
      ∃ obj : VirtualObject,
        (EscapeAnalysis.processAllocation ⟨0, [none], 5⟩ 2 0 (some 16) false 9
            8).virtualObjectFromAlias 0 = some obj ∧
        obj.fields.length = 16 / kPointerSize ∧
        obj.tracked = true ∧ obj.initialized = false :=
  ⟨⟨by decide, by decide⟩,
    processAllocation_const_size ⟨0, [none], 5⟩ 2 0 16 false 9 8 (by decide)
      (by decide)⟩

/-- Reading a status word back after writing it (in bounds). -/
theorem statusGet_setStatus_self (s : StatusState) (u : NodeId)
    (f : StatusFlags → StatusFlags) (h : u < s.status.length) :
    EscapeStatusAnalysis.statusGet (EscapeStatusAnalysis.setStatus s u f) u =
      f (EscapeStatusAnalysis.statusGet s u) := by
  unfold EscapeStatusAnalysis.statusGet EscapeStatusAnalysis.setStatus
  exact getD_set_self s.status u _ StatusFlags.unknown h

/-- Writing one status word leaves every other id unchanged. -/
theorem statusGet_setStatus_ne (s : StatusState) (u : NodeId)
    (f : StatusFlags → StatusFlags) (id : NodeId) (h : u ≠ id) :
    EscapeStatusAnalysis.statusGet (EscapeStatusAnalysis.setStatus s u f) id =
      EscapeStatusAnalysis.statusGet s id := by
  unfold EscapeStatusAnalysis.statusGet EscapeStatusAnalysis.setStatus
  exact getD_set_ne s.status u id _ StatusFlags.unknown h

/-- RevisitUses only touches kOnStack and the worklist: the status vector
keeps its length and every node keeps its kEscaped and kTracked bits. -/
theorem revisitUses_preserves (env : List NodeInfo) (n : NodeId)
    (s : StatusState) :
    (EscapeStatusAnalysis.revisitUses env s n).status.length =
        s.status.length ∧
      ∀ id : NodeId,
        (EscapeStatusAnalysis.statusGet
            (EscapeStatusAnalysis.revisitUses env s n) id).escaped =
          (EscapeStatusAnalysis.statusGet s id).escaped ∧
        (EscapeStatusAnalysis.statusGet
            (EscapeStatusAnalysis.revisitUses env s n) id).tracked =
          (EscapeStatusAnalysis.statusGet s id).tracked := by
  unfold EscapeStatusAnalysis.revisitUses
  refine foldl_pres
    (fun st => st.status.length = s.status.length ∧
      ∀ id : NodeId,
        (EscapeStatusAnalysis.statusGet st id).escaped =
          (EscapeStatusAnalysis.statusGet s id).escaped ∧
        (EscapeStatusAnalysis.statusGet st id).tracked =
          (EscapeStatusAnalysis.statusGet s id).tracked)
    (fun st e =>
      let use := e.1
      if !(EscapeStatusAnalysis.statusGet st use).onStack &&
          !(EscapeStatusAnalysis.isNotReachable st use) then
        let st1 := EscapeStatusAnalysis.setStatus st use
          (fun fl => { fl with onStack := true })
        { st1 with statusStack := st1.statusStack ++ [use] }
      else st)
    ?_ (nodeInfo env n).uses s ⟨rfl, fun _ => ⟨rfl, rfl⟩⟩
  intro st e hst
  by_cases hc : (!(EscapeStatusAnalysis.statusGet st e.1).onStack &&
      !(EscapeStatusAnalysis.isNotReachable st e.1)) = true
  · simp only [hc, if_true]
    constructor
    · simpa [EscapeStatusAnalysis.setStatus, List.length_set] using hst.1
    · intro id
      have hget :
          EscapeStatusAnalysis.statusGet
            { EscapeStatusAnalysis.setStatus st e.1
                (fun fl => { fl with onStack := true }) with
              statusStack :=
                (EscapeStatusAnalysis.setStatus st e.1
                  (fun fl => { fl with onStack := true })).statusStack ++ [e.1] }
            id =
          EscapeStatusAnalysis.statusGet
            (EscapeStatusAnalysis.setStatus st e.1
              (fun fl => { fl with onStack := true })) id := rfl
      rw [hget]
      by_cases hid : e.1 = id
      · subst hid
        by_cases hbound : e.1 < st.status.length
        · rw [statusGet_setStatus_self st e.1 _ hbound]
          exact ⟨(hst.2 e.1).1, (hst.2 e.1).2⟩
        · have hsame : EscapeStatusAnalysis.statusGet
              (EscapeStatusAnalysis.setStatus st e.1
                (fun fl => { fl with onStack := true })) e.1 =
              EscapeStatusAnalysis.statusGet st e.1 := by
            unfold EscapeStatusAnalysis.statusGet EscapeStatusAnalysis.setStatus
            rw [List.set_eq_of_length_le (Nat.le_of_not_lt hbound)]
          rw [hsame]
          exact hst.2 e.1
      · rw [statusGet_setStatus_ne st e.1 _ id hid]
        exact hst.2 id
  · simp only [hc, if_false]
    exact hst

/-- Claim C8: for an Allocate whose size input is not a compile-time constant
and which has no status entry yet, ProcessAllocate succeeds and leaves the
node both Escaped and Tracked. -/
theorem processAllocate_nonconst_escapes (env : List NodeInfo)
    (s : StatusState) (node : NodeId)
    (hentry : EscapeStatusAnalysis.hasEntry s node = false)
    (hlen : node < s.status.length) :
    ∃ s3 : StatusState,
      EscapeStatusAnalysis.processAllocate env s node false = some s3 ∧
      EscapeStatusAnalysis.isEscaped s3 node = true ∧
      (EscapeStatusAnalysis.statusGet s3 node).tracked = true := by
  have hesc0 : (EscapeStatusAnalysis.statusGet s node).escaped = false := by
    unfold EscapeStatusAnalysis.hasEntry at hentry
    exact (Bool.or_eq_false_iff.mp hentry).2
  set s1 := EscapeStatusAnalysis.setStatus s node
    (fun fl => { fl with tracked := true }) with hs1
  set s2 := EscapeStatusAnalysis.revisitUses env s1 node with hs2
  have hlen1 : s1.status.length = s.status.length := by
    simp [hs1, EscapeStatusAnalysis.setStatus, List.length_set]
  have hesc1 : (EscapeStatusAnalysis.statusGet s1 node).escaped = false := by
    rw [hs1, statusGet_setStatus_self s node _ hlen]
    exact hesc0
  have hrv := revisitUses_preserves env node s1
  have hesc2 : (EscapeStatusAnalysis.statusGet s2 node).escaped = false := by
    rw [hs2, (hrv.2 node).1]
    exact hesc1
  have hlen2 : node < s2.status.length := by
    rw [hs2, hrv.1, hlen1]
    exact hlen
  refine ⟨(EscapeStatusAnalysis.setEscaped s2 node).1, ?_, ?_, ?_⟩
  · unfold EscapeStatusAnalysis.processAllocate
    simp only [hentry, Bool.not_false, if_true, Bool.not_true, if_false,
      Bool.not_false]
    have hch : (EscapeStatusAnalysis.setEscaped s2 node).2 = true := by
      unfold EscapeStatusAnalysis.setEscaped
      simp [hesc2]
    simp only [← hs1, ← hs2, hch, if_true]
  · unfold EscapeStatusAnalysis.isEscaped EscapeStatusAnalysis.setEscaped
    rw [statusGet_setStatus_self s2 node _ hlen2]
  · unfold EscapeStatusAnalysis.setEscaped
    rw [statusGet_setStatus_self s2 node _ hlen2]

/-- Witness for the non-constant-size escape claim: a one-node environment
with an entry-free status table. -/
theorem processAllocate_nonconst_escapes_witness :
    (EscapeStatusAnalysis.hasEntry ⟨[StatusFlags.unknown], [], []⟩ 0 = false ∧
        0 < (StatusState.status ⟨[StatusFlags.unknown], [], []⟩).length) ∧
      ∃ s3 : StatusState,
        EscapeStatusAnalysis.processAllocate [] ⟨[StatusFlags.unknown], [], []⟩
            0 false = some s3 ∧
        EscapeStatusAnalysis.isEscaped s3 0 = true ∧
        (EscapeStatusAnalysis.statusGet s3 0).tracked = true :=
  ⟨⟨by decide, by decide⟩,
    processAllocate_nonconst_escapes [] ⟨[StatusFlags.unknown], [], []⟩ 0
      (by decide) (by decide)⟩

/-- Claim C10: SetEscaped sets kTracked along with kEscaped (in bounds), so an
escaped node always has a status entry, and by definition no node is ever
both virtual and escaped. -/
theorem setEscaped_tracks_and_exclusive (s : StatusState) (n : NodeId)
    (h : n < s.status.length) :
    (EscapeStatusAnalysis.statusGet
        (EscapeStatusAnalysis.setEscaped s n).1 n).escaped = true ∧
    (EscapeStatusAnalysis.statusGet
        (EscapeStatusAnalysis.setEscaped s n).1 n).tracked = true ∧
    EscapeStatusAnalysis.hasEntry (EscapeStatusAnalysis.setEscaped s n).1 n =
      true ∧
    ∀ (st : StatusState) (m : NodeId),
      (EscapeStatusAnalysis.isEscaped st m &&
        !(EscapeStatusAnalysis.hasEntry st m)) = false ∧
      (EscapeStatusAnalysis.isVirtual st m &&
        EscapeStatusAnalysis.isEscaped st m) = false := by
  have hself :
      EscapeStatusAnalysis.statusGet (EscapeStatusAnalysis.setEscaped s n).1 n =
        { EscapeStatusAnalysis.statusGet s n with
          escaped := true, tracked := true } := by
    unfold EscapeStatusAnalysis.setEscaped
    exact statusGet_setStatus_self s n _ h
  refine ⟨by rw [hself], by rw [hself], ?_, ?_⟩
  · unfold EscapeStatusAnalysis.hasEntry
    rw [hself]
    rfl
  · intro st m
    unfold EscapeStatusAnalysis.isEscaped EscapeStatusAnalysis.hasEntry
      EscapeStatusAnalysis.isVirtual
    cases hT : (EscapeStatusAnalysis.statusGet st m).tracked <;>
      cases hE : (EscapeStatusAnalysis.statusGet st m).escaped <;> simp

/-- Witness for the escaped-implies-tracked claim on a one-entry table. -/
theorem setEscaped_tracks_and_exclusive_witness :
    0 < (StatusState.status ⟨[StatusFlags.unknown], [], []⟩).length ∧
      (EscapeStatusAnalysis.statusGet
          (EscapeStatusAnalysis.setEscaped ⟨[StatusFlags.unknown], [], []⟩
            0).1 0).escaped = true ∧
      (EscapeStatusAnalysis.statusGet
          (EscapeStatusAnalysis.setEscaped ⟨[StatusFlags.unknown], [], []⟩
            0).1 0).tracked = true ∧
      EscapeStatusAnalysis.hasEntry
          (EscapeStatusAnalysis.setEscaped ⟨[StatusFlags.unknown], [], []⟩
            0).1 0 = true ∧
      ∀ (st : StatusState) (m : NodeId),
        (EscapeStatusAnalysis.isEscaped st m &&
          !(EscapeStatusAnalysis.hasEntry st m)) = false ∧
        (EscapeStatusAnalysis.isVirtual st m &&
          EscapeStatusAnalysis.isEscaped st m) = false :=
  ⟨by decide,
    setEscaped_tracks_and_exclusive ⟨[StatusFlags.unknown], [], []⟩ 0
      (by decide)⟩

/-- ResizeFields yields the max of the old field count and the request. -/
theorem resizeFields_length (o : VirtualObject) (n : Nat) :
    ((o.resizeFields n).1).fields.length = max o.fields.length n := by
  unfold VirtualObject.resizeFields
  split
  · rename_i h
    simp only [List.length_append, List.length_replicate]
    omega
  · rename_i h
    simp only [Nat.max_eq_left (by omega : n ≤ o.fields.length)]

/-- One merge-field iteration never changes the object's field count. -/
theorem mergeFieldStep_fields_length (objs : List VirtualObject) (arity : Nat)
    (control : NodeId) (p : Graph × VirtualObject × Bool) (i : Nat) :
    ((mergeFieldStep objs arity control p i).2.1).fields.length =
      p.2.1.fields.length := by
  simp only [mergeFieldStep]
  split
  · simp [VirtualObject.setField, List.length_set]
  · split
    · split
      · simp [VirtualObject.setField, List.length_set]
      · split
        · rfl
        · rfl
    · simp [VirtualObject.setField, List.length_set]

/-- The merge-field loop never changes the object's field count. -/
theorem mergeFieldLoop_fields_length (objs : List VirtualObject) (arity : Nat)
    (control : NodeId) :
    ∀ (w : List Nat) (q : Graph × VirtualObject × Bool),
      ((w.foldl (mergeFieldStep objs arity control) q).2.1).fields.length =
        q.2.1.fields.length := by
  intro w
  induction w with
  | nil => intro q; rfl
  | cons i t ih =>
    intro q
    rw [List.foldl_cons, ih, mergeFieldStep_fields_length]

/-- GetOrCreateTrackedVirtualObject at an empty slot without force creates the
zero-field Tracked object and installs it. -/
theorem getOrCreate_none (s : VirtualState) (a : Nat) (id : NodeId) (fn : Nat)
    (init : Bool) (ft : Nat) (hm : s.virtualObjectFromAlias a = none) :
    s.getOrCreateTrackedVirtualObject a id fn init ft false =
      (VirtualObject.freshTracked id s.tag ft 0 init,
       s.setVirtualObject a (some (VirtualObject.freshTracked id s.tag ft 0 init))) := by
  simp [VirtualState.getOrCreateTrackedVirtualObject, hm]

/-- GetOrCreateTrackedVirtualObject at an occupied slot without force returns
the existing object and leaves the state alone. -/
theorem getOrCreate_some (s : VirtualState) (a : Nat) (id : NodeId) (fn : Nat)
    (init : Bool) (ft : Nat) (m : VirtualObject)
    (hm : s.virtualObjectFromAlias a = some m) :
    s.getOrCreateTrackedVirtualObject a id fn init ft false = (m, s) := by
  simp [VirtualState.getOrCreateTrackedVirtualObject, hm]

/-- GetOrCreateTrackedVirtualObject with force always creates anew. -/
theorem getOrCreate_force (s : VirtualState) (a : Nat) (id : NodeId) (fn : Nat)
    (init : Bool) (ft : Nat) :
    s.getOrCreateTrackedVirtualObject a id fn init ft true =
      (VirtualObject.freshTracked id s.tag ft 0 init,
       s.setVirtualObject a (some (VirtualObject.freshTracked id s.tag ft 0 init))) := by
  simp [VirtualState.getOrCreateTrackedVirtualObject]

/-- GetOrCreateTrackedVirtualObject keeps the state's alias-map size. -/
theorem getOrCreate_info_length (s : VirtualState) (a : Nat) (id : NodeId)
    (fn : Nat) (init : Bool) (ft : Nat) (fc : Bool) :
    ((s.getOrCreateTrackedVirtualObject a id fn init ft fc).2).info.length =
      s.info.length := by
  unfold VirtualState.getOrCreateTrackedVirtualObject
  split
  · cases hm : s.virtualObjectFromAlias a with
    | some m => simp [hm]
    | none => simp [hm, VirtualState.setVirtualObject, List.length_set]
  · simp [VirtualState.setVirtualObject, List.length_set]

/-- GetOrCreateTrackedVirtualObject only writes its own slot. -/
theorem getOrCreate_slot_other (s : VirtualState) (b : Nat) (id : NodeId)
    (fn : Nat) (init : Bool) (ft : Nat) (fc : Bool) (a : Nat) (h : b ≠ a) :
    ((s.getOrCreateTrackedVirtualObject b id fn init ft fc).2).virtualObjectFromAlias a =
      s.virtualObjectFromAlias a := by
  unfold VirtualState.getOrCreateTrackedVirtualObject
  split
  · cases hm : s.virtualObjectFromAlias b with
    | some m => simp [hm]
    | none =>
      simp only [hm]
      unfold VirtualState.setVirtualObject VirtualState.virtualObjectFromAlias
      exact getD_set_ne s.info b a _ none h
  · unfold VirtualState.setVirtualObject VirtualState.virtualObjectFromAlias
    exact getD_set_ne s.info b a _ none h

/-- The per-alias merge keeps the merge state's alias-map size. -/
theorem mergeFromAlias_info_length (states : List VirtualState) (arity : Nat)
    (control : NodeId) (p : Graph × Nat × VirtualState × Bool) (b : Nat) :
    (mergeFromAlias states arity control p b).2.2.1.info.length =
      p.2.2.1.info.length := by
  simp only [mergeFromAlias]
  split
  · split
    · rfl
    · simp only [VirtualState.setVirtualObject, List.length_set]
      exact getOrCreate_info_length _ _ _ _ _ _ _
  · simp only [VirtualState.setVirtualObject, List.length_set]

/-- The per-alias merge at b leaves every other slot unchanged. -/
theorem mergeFromAlias_slot_other (states : List VirtualState) (arity : Nat)
    (control : NodeId) (p : Graph × Nat × VirtualState × Bool) (b a : Nat)
    (h : b ≠ a) :
    (mergeFromAlias states arity control p b).2.2.1.virtualObjectFromAlias a =
      p.2.2.1.virtualObjectFromAlias a := by
  simp only [mergeFromAlias]
  split
  · split
    · rfl
    · show (VirtualState.setVirtualObject _ b _).virtualObjectFromAlias a = _
      unfold VirtualState.setVirtualObject VirtualState.virtualObjectFromAlias
      rw [getD_set_ne _ b a _ none h]
      exact getOrCreate_slot_other _ b _ _ _ _ _ a h
  · show (VirtualState.setVirtualObject _ b none).virtualObjectFromAlias a = _
    unfold VirtualState.setVirtualObject VirtualState.virtualObjectFromAlias
    exact getD_set_ne _ b a _ none h

/-- When not every in-state contributes an object at the alias, the merged
slot is cleared. -/
theorem mergeFromAlias_slot_absent (states : List VirtualState) (arity : Nat)
    (control : NodeId) (p : Graph × Nat × VirtualState × Bool) (a : Nat)
    (h : (states.filterMap
        (fun st => st.virtualObjectFromAlias a)).length ≠ states.length)
    (ha : a < p.2.2.1.info.length) :
    (mergeFromAlias states arity control p a).2.2.1.virtualObjectFromAlias a =
      none := by
  simp only [mergeFromAlias]
  rw [if_neg h]
  show (VirtualState.setVirtualObject _ a none).virtualObjectFromAlias a = none
  unfold VirtualState.setVirtualObject VirtualState.virtualObjectFromAlias
  exact getD_set_self _ a none none ha


/-- Reading back the slot SetVirtualObject has just written (in bounds). -/
theorem slot_set_self (s : VirtualState) (a : Nat) (x : Option VirtualObject)
    (ha : a < s.info.length) :
    (s.setVirtualObject a x).virtualObjectFromAlias a = x := by
  unfold VirtualState.setVirtualObject VirtualState.virtualObjectFromAlias
  exact getD_set_self s.info a x none ha

/-- When every in-state contributes an object at the alias, the per-alias
merge installs an object whose field count is the contributors' minimum when
the merge slot was empty or its object is one of the contributors (fresh
creation), and otherwise the max of the prior object's count and that
minimum (ResizeFields never shrinks the pre-existing merge object). -/
theorem mergeFromAlias_slot_present (states : List VirtualState) (arity : Nat)
    (control : NodeId) (p : Graph × Nat × VirtualState × Bool) (a : Nat)
    (hlen : (states.filterMap
        (fun st => st.virtualObjectFromAlias a)).length = states.length)
    (hobne : states.filterMap (fun st => st.virtualObjectFromAlias a) ≠ [])
    (ha : a < p.2.2.1.info.length) :
    ((mergeFromAlias states arity control p a).2.2.1.virtualObjectFromAlias
        a).map (fun o => o.fields.length) =
      some
        (match p.2.2.1.virtualObjectFromAlias a with
         | none =>
           minFieldCount
             (states.filterMap (fun st => st.virtualObjectFromAlias a))
         | some m =>
           if (states.filterMap (fun st => st.virtualObjectFromAlias a)).any
               (fun ob => ob.tag == m.tag) then
             minFieldCount
               (states.filterMap (fun st => st.virtualObjectFromAlias a))
           else
             max m.fields.length
               (minFieldCount
                 (states.filterMap (fun st => st.virtualObjectFromAlias a)))) := by
  cases hO : states.filterMap (fun st => st.virtualObjectFromAlias a) with
  | nil => exact absurd hO hobne
  | cons o0 rest =>
    rw [hO] at hlen
    simp only [mergeFromAlias, hO, hlen, eq_self_iff_true, if_true]
    cases hprior : p.2.2.1.virtualObjectFromAlias a with
    | none =>
      simp only [hprior]
      rw [getOrCreate_none p.2.2.1 a o0.id _ _ _ hprior]
      rw [slot_set_self]
      · rw [Option.map_some', Option.some_inj, mergeFieldLoop_fields_length,
          resizeFields_length]
        simp [VirtualObject.freshTracked]
      · simp only [VirtualState.setVirtualObject, List.length_set]
        exact ha
    | some m =>
      simp only [hprior]
      by_cases hany : ((o0 :: rest).any (fun ob => ob.tag == m.tag)) = true
      · simp only [hany, eq_self_iff_true, if_true]
        rw [getOrCreate_force]
        rw [slot_set_self]
        · rw [Option.map_some', Option.some_inj, mergeFieldLoop_fields_length,
            resizeFields_length]
          simp [VirtualObject.freshTracked]
        · simp only [VirtualState.setVirtualObject, List.length_set]
          exact ha
      · have hany2 : ((o0 :: rest).any (fun ob => ob.tag == m.tag)) = false :=
          Bool.eq_false_iff.mpr hany
        simp only [hany2, Bool.false_eq_true, if_false]
        rw [getOrCreate_some p.2.2.1 a o0.id _ _ _ m hprior]
        rw [slot_set_self]
        · rw [Option.map_some', Option.some_inj, mergeFieldLoop_fields_length,
            resizeFields_length]
        · exact ha

/-- Folding the per-alias merge keeps the merge state's alias-map size. -/
theorem mergeFrom_foldl_info_length (states : List VirtualState) (arity : Nat)
    (control : NodeId) :
    ∀ (w : List Nat) (p : Graph × Nat × VirtualState × Bool),
      ((w.foldl (mergeFromAlias states arity control) p).2.2.1).info.length =
        p.2.2.1.info.length := by
  intro w
  induction w with
  | nil => intro p; rfl
  | cons b t ih =>
    intro p
    rw [List.foldl_cons, ih, mergeFromAlias_info_length]

/-- Folding the per-alias merge over aliases different from a leaves slot a
unchanged. -/
theorem mergeFrom_foldl_slot_frozen (states : List VirtualState) (arity : Nat)
    (control : NodeId) :
    ∀ (w : List Nat) (p : Graph × Nat × VirtualState × Bool) (a : Nat),
      (∀ b ∈ w, b ≠ a) →
      ((w.foldl (mergeFromAlias states arity
          control) p).2.2.1).virtualObjectFromAlias a =
        p.2.2.1.virtualObjectFromAlias a := by
  intro w
  induction w with
  | nil => intro p a h; rfl
  | cons b t ih =>
    intro p a h
    rw [List.foldl_cons,
      ih (mergeFromAlias states arity control p b) a
        (fun c hc => h c (List.mem_cons_of_mem b hc)),
      mergeFromAlias_slot_other states arity control p b a
        (h b (List.mem_cons_self b t))]

/-- Character of the alias loop of MergeFrom: slot a of the result is null
when not every in-state contributes at a, and otherwise an object whose field
count is determined by the original slot and the contributors. -/
theorem mergeFrom_foldl_char (states : List VirtualState) (arity : Nat)
    (control : NodeId) :
    ∀ (len : Nat) (p : Graph × Nat × VirtualState × Bool) (a : Nat),
      a < len → len ≤ p.2.2.1.info.length →
      (((states.filterMap
            (fun st => st.virtualObjectFromAlias a)).length ≠ states.length →
        ((List.range len).foldl (mergeFromAlias states arity
            control) p).2.2.1.virtualObjectFromAlias a = none) ∧
       ((states.filterMap
            (fun st => st.virtualObjectFromAlias a)).length = states.length →
        states.filterMap (fun st => st.virtualObjectFromAlias a) ≠ [] →
        (((List.range len).foldl (mergeFromAlias states arity
            control) p).2.2.1.virtualObjectFromAlias a).map
            (fun o => o.fields.length) =
          some
            (match p.2.2.1.virtualObjectFromAlias a with
             | none =>
               minFieldCount
                 (states.filterMap (fun st => st.virtualObjectFromAlias a))
             | some m =>
               if (states.filterMap
                   (fun st => st.virtualObjectFromAlias a)).any
                   (fun ob => ob.tag == m.tag) then
                 minFieldCount
                   (states.filterMap (fun st => st.virtualObjectFromAlias a))
               else
                 max m.fields.length
                   (minFieldCount
                     (states.filterMap
                       (fun st => st.virtualObjectFromAlias a)))))) := by
  intro len
  induction len with
  | zero => intro p a h; omega
  | succ n ih =>
    intro p a ha hle
    rw [List.range_succ, List.foldl_append, List.foldl_cons, List.foldl_nil]
    have hQlen :
        ((List.range n).foldl (mergeFromAlias states arity
            control) p).2.2.1.info.length = p.2.2.1.info.length :=
      mergeFrom_foldl_info_length states arity control (List.range n) p
    by_cases han : a = n
    · subst han
      have hfrozen :
          ((List.range a).foldl (mergeFromAlias states arity
              control) p).2.2.1.virtualObjectFromAlias a =
            p.2.2.1.virtualObjectFromAlias a :=
        mergeFrom_foldl_slot_frozen states arity control (List.range a) p a
          (fun b hb => by have := List.mem_range.mp hb; omega)
      have haQ : a <
          ((List.range a).foldl (mergeFromAlias states arity
              control) p).2.2.1.info.length := by omega
      constructor
      · intro hne
        exact mergeFromAlias_slot_absent states arity control _ a hne haQ
      · intro heq hobne
        rw [mergeFromAlias_slot_present states arity control _ a heq hobne haQ,
          hfrozen]
    · have ha2 : a < n := by omega
      have hIH := ih p a ha2 (by omega)
      constructor
      · intro hne
        rw [mergeFromAlias_slot_other states arity control _ n a
          (fun hc => han hc.symm)]
        exact hIH.1 hne
      · intro heq hobne
        rw [mergeFromAlias_slot_other states arity control _ n a
          (fun hc => han hc.symm)]
        exact hIH.2 heq hobne

/-- Claim C2 counterexample: at an EffectPhi merge where the single in-state
contributes a one-field object, every in-state has an object at alias 0 and
the minimum contributor field count is 1, yet the merged object keeps the
field count 2 of the pre-existing merge object: ResizeFields never shrinks
it, so the merged field count does not equal the contributors' minimum. -/
theorem mergeFrom_min_fieldCount_counterexample :
    ([stateC2].filterMap (fun st => st.virtualObjectFromAlias 0)).length =
        [stateC2].length ∧
      minFieldCount
          ([stateC2].filterMap (fun st => st.virtualObjectFromAlias 0)) = 1 ∧
      (((VirtualState.mergeFrom mergeC2 ⟨1000, []⟩ 200 [stateC2] 1
          50).2.2.1.virtualObjectFromAlias 0).map
          (fun o => o.fields.length)) = some 2 := by
  decide

/-- Claim C2 (amended): after MergeFrom at an EffectPhi, for every alias the
merged state holds an object exactly when every collected in-state holds one
(otherwise the slot is null); when present, the merged object's field count
equals the minimum field count among the contributors whenever the merge slot
was previously empty or its previous object is itself one of the contributors
(the object is then created afresh), and otherwise equals the max of the
previous merge object's field count and that minimum, because ResizeFields
only ever grows the pre-existing object. -/
theorem mergeFrom_presence_and_fieldCount (merge : VirtualState) (g : Graph)
    (tagCtr : Nat) (states : List VirtualState) (arity : Nat)
    (control : NodeId) (hne : states ≠ []) (a : Nat)
    (ha : a < merge.info.length) :
    ((((VirtualState.mergeFrom merge g tagCtr states arity
        control).2.2.1.virtualObjectFromAlias a).isSome = true) ↔
      ∀ st ∈ states, ((st.virtualObjectFromAlias a).isSome = true)) ∧
    ((states.filterMap (fun st => st.virtualObjectFromAlias a)).length =
        states.length →
      ((VirtualState.mergeFrom merge g tagCtr states arity
          control).2.2.1.virtualObjectFromAlias a).map
          (fun o => o.fields.length) =
        some
          (match merge.virtualObjectFromAlias a with
           | none =>
             minFieldCount
               (states.filterMap (fun st => st.virtualObjectFromAlias a))
           | some m =>
             if (states.filterMap (fun st => st.virtualObjectFromAlias a)).any
                 (fun ob => ob.tag == m.tag) then
               minFieldCount
                 (states.filterMap (fun st => st.virtualObjectFromAlias a))
             else
               max m.fields.length
                 (minFieldCount
                   (states.filterMap
                     (fun st => st.virtualObjectFromAlias a))))) := by
  have hchar := mergeFrom_foldl_char states arity control merge.info.length
    (g, tagCtr, merge, false) a ha (le_refl _)
  have hobne :
      (states.filterMap (fun st => st.virtualObjectFromAlias a)).length =
        states.length →
      states.filterMap (fun st => st.virtualObjectFromAlias a) ≠ [] := by
    intro hq h0
    rw [h0] at hq
    exact hne (List.length_eq_zero.mp hq.symm)
  unfold VirtualState.mergeFrom
  constructor
  · by_cases hq :
        (states.filterMap (fun st => st.virtualObjectFromAlias a)).length =
          states.length
    · have hmap := hchar.2 hq (hobne hq)
      constructor
      · intro _
        exact fun st hst => (filterMap_length_eq_iff _ states).mp hq st hst
      · intro _
        cases hslot : ((List.range merge.info.length).foldl
            (mergeFromAlias states arity control)
            (g, tagCtr, merge, false)).2.2.1.virtualObjectFromAlias a with
        | none => rw [hslot] at hmap; simp at hmap
        | some o => rfl
    · have hnone := hchar.1 hq
      constructor
      · intro hs
        rw [hnone] at hs
        simp at hs
      · intro hall
        exact absurd ((filterMap_length_eq_iff _ states).mpr hall) hq
  · intro hq
    exact hchar.2 hq (hobne hq)

/-- Witness for the amended MergeFrom claim at the concrete counterexample
configuration (one in-state, one alias). -/
theorem mergeFrom_presence_and_fieldCount_witness :
    (([stateC2] : List VirtualState) ≠ [] ∧ 0 < mergeC2.info.length) ∧
      ((((VirtualState.mergeFrom mergeC2 ⟨1000, []⟩ 200 [stateC2] 1
          50).2.2.1.virtualObjectFromAlias 0).isSome = true) ↔
        ∀ st ∈ ([stateC2] : List VirtualState),
          ((st.virtualObjectFromAlias 0).isSome = true)) ∧
      (([stateC2].filterMap (fun st => st.virtualObjectFromAlias 0)).length =
          ([stateC2] : List VirtualState).length →
        ((VirtualState.mergeFrom mergeC2 ⟨1000, []⟩ 200 [stateC2] 1
            50).2.2.1.virtualObjectFromAlias 0).map
            (fun o => o.fields.length) =
          some
            (match mergeC2.virtualObjectFromAlias 0 with
             | none =>
               minFieldCount
                 ([stateC2].filterMap (fun st => st.virtualObjectFromAlias 0))
             | some m =>
               if ([stateC2].filterMap
                   (fun st => st.virtualObjectFromAlias 0)).any
                   (fun ob => ob.tag == m.tag) then
                 minFieldCount
                   ([stateC2].filterMap
                     (fun st => st.virtualObjectFromAlias 0))
               else
                 max m.fields.length
                   (minFieldCount
                     ([stateC2].filterMap
                       (fun st => st.virtualObjectFromAlias 0))))) :=
  ⟨⟨by decide, by decide⟩,
    mergeFrom_presence_and_fieldCount mergeC2 ⟨1000, []⟩ 200 [stateC2] 1 50
      (by decide) 0 (by decide)⟩
